import Mathlib

/-!
Shallow embedding of launcher.py, a window-correlation and launch
orchestration tool driving the external wmctrl utility.

Modelling conventions:
* The external window manager is modelled as a snapshot stream
  env : Nat -> List String; the k-th call to get_windows returns env k
  (each line of wmctrl output is one String).
* Python str.split() is pySplit, the substring test (x in y) is pyIn,
  both implemented structurally over character lists.
* Python exceptions are the PyErr values: indexError for IndexError on
  list subscripts, unboundLocal for reading the never-assigned local wid,
  valueError for the ValueError raised by the terminal profile.
* Side effects are recorded as data: mutation commands are the argument
  vectors handed to subprocess.run, the orchestration trace is a list of
  OrchEvent values, and calls to time.sleep are counted.
* subprocess.Popen is abstracted by the pid of the spawned process, and
  shlex.split (an external library routine) is a function parameter.
-/

namespace Launcher

/-- Column of the owner process id in wmctrl -l -p output (PID_INDEX = 2). -/
def PID_INDEX : Nat := 2

/-- Column of the first token of the title in wmctrl -l -p output (TITLE_INDEX = 4). -/
def TITLE_INDEX : Nat := 4

/-- Python whitespace characters recognised by str.split(). -/
def isPySpace (c : Char) : Bool :=
  c == ' ' || c == '\t' || c == '\n' || c == '\r' || c == '\x0b' || c == '\x0c'

/-- Worker for pySplit: splits on runs of whitespace, dropping empty fields. -/
def splitWsAux : List Char → List Char → List String
  | [], acc => if acc.isEmpty then [] else [String.mk acc.reverse]
  | c :: cs, acc =>
    if isPySpace c then
      if acc.isEmpty then splitWsAux cs [] else String.mk acc.reverse :: splitWsAux cs []
    else splitWsAux cs (c :: acc)

/-- Python str.split() with no arguments. -/
def pySplit (s : String) : List String := splitWsAux s.toList []

/-- Whether the second list stands at the head of the first. -/
def leadsWith : List Char → List Char → Bool
  | _, [] => true
  | [], _ :: _ => false
  | a :: as, b :: bs => a == b && leadsWith as bs

/-- Whether pat occurs contiguously somewhere inside the list. -/
def hasSubList (pat : List Char) : List Char → Bool
  | [] => leadsWith [] pat
  | a :: as => leadsWith (a :: as) pat || hasSubList pat as

/-- Python substring containment: pyIn pat s models (pat in s). -/
def pyIn (pat s : String) : Bool := hasSubList pat.toList s.toList

/-- Python exceptions that the embedded code can raise. -/
inductive PyErr where
  | indexError : PyErr
  | unboundLocal : PyErr
  | valueError : PyErr
deriving DecidableEq

/-- Token i of a wmctrl output line (defaulting to "" when absent);
used only to phrase theorems, never by the embedded code itself. -/
def tok (r : String) (i : Nat) : String := ((pySplit r)[i]?).getD ""

/-- Outcome of one scan of a snapshot: the inner for loop of get_new_wid.
found is the Python flag, wid the value of the persisted local wid after
the scan, sleeps the number of time.sleep(0.05) calls made in the scan. -/
structure ScanResult where
  found : Bool
  wid : Option String
  sleeps : Nat

/-- One pass of get_new_wid over the rows of a snapshot, threading the
Python local wid (w is its value before the pass, none if unassigned).
Faithful to launcher.py lines 59-71: wid and the selected field are read
from every row before the membership test on old_wins; rows in old_wins
are skipped; the first new row whose field contains the pattern stops the
scan; every other new row is followed by one sleep. -/
def scanRows (old : List String) (pattern : String) (fIndex : Nat) :
    List String → Option String → Except PyErr ScanResult
  | [], w => .ok ⟨false, w, 0⟩
  | row :: rest, _w =>
    match (pySplit row)[0]? with
    | none => .error .indexError
    | some wid =>
      match (pySplit row)[fIndex]? with
      | none => .error .indexError
      | some field =>
        if old.contains wid then
          scanRows old pattern fIndex rest (some wid)
        else if pyIn pattern field then
          .ok ⟨true, some wid, 0⟩
        else
          match scanRows old pattern fIndex rest (some wid) with
          | .error e => .error e
          | .ok r => .ok ⟨r.found, r.wid, r.sleeps + 1⟩

/-- State of the while loop of get_new_wid: q is the index of the next
get_windows call, c the Python loop counter, found and wid the Python
locals, sleeps the accumulated sleep count, err a raised exception. -/
structure LoopState where
  q : Nat
  c : Nat
  found : Bool
  wid : Option String
  sleeps : Nat
  err : Option PyErr

/-- The while loop of get_new_wid (while not found and c < 1000), with the
remaining iteration budget as fuel; started with fuel 1000 and c = 0 it
executes exactly the passes the Python loop would. An exception aborts
the loop immediately. -/
def runLoop (env : Nat → List String) (old : List String) (pattern : String)
    (fIndex : Nat) : Nat → LoopState → LoopState
  | 0, st => st
  | fuel + 1, st =>
    if st.found || st.err.isSome then st
    else
      match scanRows old pattern fIndex (env st.q) st.wid with
      | .error e => ⟨st.q + 1, st.c + 1, false, st.wid, st.sleeps, some e⟩
      | .ok r =>
        runLoop env old pattern fIndex fuel
          ⟨st.q + 1, st.c + 1, r.found, r.wid, st.sleeps + r.sleeps, none⟩

/-- Result of get_new_wid: ret is the returned wid or the raised
exception, q the index after the last get_windows call, passes the total
number of executed loop passes, sleeps the total sleep count. -/
structure GNWOut where
  ret : Except PyErr String
  q : Nat
  passes : Nat
  sleeps : Nat

/-- The bounded polling loop of get_new_wid, from query index q0. -/
def gnwLoop (env : Nat → List String) (old : List String) (pattern : String)
    (fIndex : Nat) (q0 : Nat) : LoopState :=
  runLoop env old pattern fIndex 1000 ⟨q0, 0, false, none, 0, none⟩

/-- The final (return wid) statement of get_new_wid: returns whatever the
local wid holds, raising UnboundLocalError if it was never assigned. -/
def gnwReturn (st : LoopState) : GNWOut :=
  match st.err with
  | some e => ⟨.error e, st.q, st.c, st.sleeps⟩
  | none =>
    match st.wid with
    | some w => ⟨.ok w, st.q, st.c, st.sleeps⟩
    | none => ⟨.error .unboundLocal, st.q, st.c, st.sleeps⟩

/-- get_wids: the set of first tokens of the rows of one snapshot
(membership is all that is ever used, so a list represents the set).
Raises IndexError on a row with no tokens, like line.split()[0]. -/
def get_wids (rows : List String) : Except PyErr (List String) :=
  rows.mapM fun line =>
    match (pySplit line)[0]? with
    | some w => Except.ok w
    | none => Except.error PyErr.indexError

/-- get_new_wid from launcher.py: poll for a window absent from old_wins
whose selected column contains the pattern; with rep set, re-baseline on
all currently known handles and run the whole search once more with rep
disabled, returning the second result. -/
def get_new_wid (env : Nat → List String) (old_wins : List String) (pattern : String)
    (fIndex : Nat) (rep : Bool) (q0 : Nat) : GNWOut :=
  let st := gnwLoop env old_wins pattern fIndex q0
  if rep then
    match st.err with
    | some e => ⟨.error e, st.q, st.c, st.sleeps⟩
    | none =>
      match get_wids (env st.q) with
      | .error e => ⟨.error e, st.q + 1, st.c, st.sleeps⟩
      | .ok newOld =>
        let inner := gnwReturn (gnwLoop env newOld pattern fIndex (st.q + 1))
        ⟨inner.ret, inner.q, st.c + inner.passes, st.sleeps + inner.sleeps⟩
  else gnwReturn st

/-- get_wid_by_pid: correlation by owner process id (column PID_INDEX),
matching str(pid) by substring; double requests the second window. -/
def get_wid_by_pid (env : Nat → List String) (old_wids : List String) (pid : Int)
    (double : Bool) (q0 : Nat) : GNWOut :=
  get_new_wid env old_wids (toString pid) PID_INDEX double q0

/-- get_wid_by_title: correlation by the first token of the title
(column TITLE_INDEX). -/
def get_wid_by_title (env : Nat → List String) (old_wids : List String)
    (pattern : String) (q0 : Nat) : GNWOut :=
  get_new_wid env old_wids pattern TITLE_INDEX false q0

/-- rename_window: the argument vector handed to subprocess.run. -/
def rename_window (wid new_name : String) : List String :=
  ["wmctrl", "-i", "-r", wid, "-T", new_name]

/-- move_win_to_ws: the argument vector handed to subprocess.run.
The workspace number is dispatched as str(workspace), unchanged. -/
def move_win_to_ws (win_id : String) (workspace : Int) : List String :=
  ["wmctrl", "-i", "-r", win_id, "-t", toString workspace]

/-- The correlation strategies the profiles pass as the get_wid argument. -/
inductive Strategy where
  | byPid : Bool → Strategy
  | byTitle : String → Strategy

/-- Orchestration trace events: the baseline get_wids call, the process
spawn with its argument vector, each get_windows call made during
correlation, and the two mutation commands. -/
inductive OrchEvent where
  | baseline : OrchEvent
  | spawn : List String → OrchEvent
  | poll : OrchEvent
  | renameCmd : List String → OrchEvent
  | moveCmd : List String → OrchEvent

/-- Dispatch of the configured correlation strategy on the baseline. -/
def runStrategy (env : Nat → List String) (old : List String) (pid : Int)
    (strat : Strategy) (q : Nat) : GNWOut :=
  match strat with
  | .byPid d => get_wid_by_pid env old pid d q
  | .byTitle p => get_wid_by_title env old p q

/-- Result of launch_and_get_wid: the correlated handle (or exception),
the event trace, and the query index after the call. -/
structure GWOut where
  ret : Except PyErr String
  events : List OrchEvent
  q : Nat

/-- launch_and_get_wid: capture the baseline handle set, spawn the
process, then run the correlation strategy against the baseline. -/
def launch_and_get_wid (env : Nat → List String) (pid : Int) (prog_array : List String)
    (strat : Strategy) (q0 : Nat) : GWOut :=
  match get_wids (env q0) with
  | .error e => ⟨.error e, [], q0 + 1⟩
  | .ok old =>
    let out := runStrategy env old pid strat (q0 + 1)
    ⟨out.ret, .baseline :: .spawn prog_array :: List.replicate (out.q - (q0 + 1)) .poll,
      out.q⟩

/-- Result of launch_and_move: the Python return value (None on success,
so Option String with success = ok none), the trace, the query index. -/
structure LMOut where
  ret : Except PyErr (Option String)
  events : List OrchEvent
  q : Nat

/-- launch_and_move: correlate the new window, rename it when new_name is
given, then move it; the function body has no return statement, so the
Python return value on success is None. -/
def launch_and_move (env : Nat → List String) (pid : Int) (prog_array : List String)
    (strat : Strategy) (workspace : Int) (new_name : Option String) (q0 : Nat) : LMOut :=
  let g := launch_and_get_wid env pid prog_array strat q0
  match g.ret with
  | .error e => ⟨.error e, g.events, g.q⟩
  | .ok wid =>
    let renames := match new_name with
      | some nm => [OrchEvent.renameCmd (rename_window wid nm)]
      | none => []
    ⟨.ok none, g.events ++ renames ++ [OrchEvent.moveCmd (move_win_to_ws wid workspace)], g.q⟩

/-- The gnome-terminal argument vector built by the terminal profile;
shx abstracts shlex.split. -/
def terminal_prog_array (shx : String → List String) (directory command : Option String)
    (options : List String) (profile : String) : List String :=
  (["gnome-terminal", "--window-with-profile=" ++ profile]
      ++ (match directory with
          | some d => ["--working-directory=" ++ d]
          | none => [])
      ++ options)
    ++ (match command with
        | some c => "--" :: shx c
        | none => [])

/-- The terminal profile: build the argument vector, validate that the
first word of the requested title does not contain the marker word
Terminal (raising ValueError before anything is launched), then delegate
to launch_and_move with title-based correlation on that marker. -/
def terminal (shx : String → List String) (env : Nat → List String) (pid : Int)
    (workspace : Int) (directory command : Option String) (options : List String)
    (new_win_name : String) (profile : String) (q0 : Nat) : LMOut :=
  match (pySplit new_win_name)[0]? with
  | none => ⟨.error .indexError, [], q0⟩
  | some w0 =>
    if pyIn "Terminal" w0 then ⟨.error .valueError, [], q0⟩
    else
      launch_and_move env pid (terminal_prog_array shx directory command options profile)
        (.byTitle "Terminal") workspace (some new_win_name) q0

/-- A row that never stops a scan: its columns are readable and it is
either a baseline row or its selected field does not contain the pattern. -/
def quietRow (old : List String) (pattern : String) (fIndex : Nat) (r : String) : Prop :=
  fIndex < (pySplit r).length ∧
    (tok r 0 ∈ old ∨ pyIn pattern (tok r fIndex) = false)

instance (old : List String) (pattern : String) (fIndex : Nat) (r : String) :
    Decidable (quietRow old pattern fIndex r) := by
  unfold quietRow; infer_instance

/-- Value of the persisted local wid after scanning the given rows,
starting from value w: the first token of the last row, if any. -/
def lastWid : Option String → List String → Option String
  | w, [] => w
  | _, r :: rest => lastWid (some (tok r 0)) rest

/-- Whether a launch_and_move result is a success (no exception). -/
def isOkLM : Except PyErr (Option String) → Bool
  | .ok _ => true
  | .error _ => false

/-- Whether an orchestration event is a move (relocate) command. -/
def isMoveEv : OrchEvent → Bool
  | .moveCmd _ => true
  | _ => false

/-- Whether an orchestration event is a rename command. -/
def isRenameEv : OrchEvent → Bool
  | .renameCmd _ => true
  | _ => false

lemma getElem_tok {r : String} {i : Nat} (h : i < (pySplit r).length) :
    (pySplit r)[i]? = some (tok r i) := by
  cases hg : (pySplit r)[i]? with
  | none =>
    have := List.getElem?_eq_none_iff.mp hg
    omega
  | some v => simp [tok, hg]

lemma countP_repl (p : OrchEvent → Bool) (n : Nat) (a : OrchEvent) :
    List.countP p (List.replicate n a) = if p a then n else 0 := by
  induction n with
  | zero => simp
  | succ m ih =>
    rw [List.replicate_succ, List.countP_cons, ih]
    by_cases h : p a <;> simp [h]

lemma lastWid_irrel {rows : List String} (hne : rows ≠ []) (w w' : Option String) :
    lastWid w rows = lastWid w' rows := by
  cases rows with
  | nil => exact absurd rfl hne
  | cons r rest => rfl

lemma scanRows_cons_old (old : List String) (pattern : String) (fIndex : Nat)
    (row : String) (rest : List String) (w : Option String)
    (hlen : fIndex < (pySplit row).length) (hc : tok row 0 ∈ old) :
    scanRows old pattern fIndex (row :: rest) w
      = scanRows old pattern fIndex rest (some (tok row 0)) := by
  have h0 : (pySplit row)[0]? = some (tok row 0) := getElem_tok (by omega)
  have hfi : (pySplit row)[fIndex]? = some (tok row fIndex) := getElem_tok hlen
  simp [scanRows, h0, hfi, hc]

lemma scanRows_cons_hit (old : List String) (pattern : String) (fIndex : Nat)
    (row : String) (rest : List String) (w : Option String)
    (hlen : fIndex < (pySplit row).length) (hc : tok row 0 ∉ old)
    (hm : pyIn pattern (tok row fIndex) = true) :
    scanRows old pattern fIndex (row :: rest) w
      = .ok ⟨true, some (tok row 0), 0⟩ := by
  have h0 : (pySplit row)[0]? = some (tok row 0) := getElem_tok (by omega)
  have hfi : (pySplit row)[fIndex]? = some (tok row fIndex) := getElem_tok hlen
  simp [scanRows, h0, hfi, hc, hm]

lemma scanRows_cons_sleep (old : List String) (pattern : String) (fIndex : Nat)
    (row : String) (rest : List String) (w : Option String)
    (hlen : fIndex < (pySplit row).length) (hc : tok row 0 ∉ old)
    (hm : pyIn pattern (tok row fIndex) = false) :
    scanRows old pattern fIndex (row :: rest) w
      = match scanRows old pattern fIndex rest (some (tok row 0)) with
        | .error e => .error e
        | .ok r => .ok ⟨r.found, r.wid, r.sleeps + 1⟩ := by
  have h0 : (pySplit row)[0]? = some (tok row 0) := getElem_tok (by omega)
  have hfi : (pySplit row)[fIndex]? = some (tok row fIndex) := getElem_tok hlen
  simp [scanRows, h0, hfi, hc, hm]

lemma scanRows_cons_short (old : List String) (pattern : String) (fIndex : Nat)
    (row : String) (rest : List String) (w : Option String)
    (hbad : (pySplit row).length ≤ fIndex) :
    scanRows old pattern fIndex (row :: rest) w = .error .indexError := by
  cases h0 : (pySplit row)[0]? with
  | none => simp [scanRows, h0]
  | some v =>
    have hf : (pySplit row)[fIndex]? = none := List.getElem?_eq_none_iff.mpr hbad
    simp [scanRows, h0, hf]

lemma scanRows_quiet (old : List String) (pattern : String) (fIndex : Nat) :
    ∀ (rows : List String) (w : Option String),
      (∀ r ∈ rows, quietRow old pattern fIndex r) →
      scanRows old pattern fIndex rows w
        = .ok ⟨false, lastWid w rows,
            rows.countP (fun r => !(old.contains (tok r 0)))⟩ := by
  intro rows
  induction rows with
  | nil => intro w _; simp [scanRows, lastWid]
  | cons row rest ih =>
    intro w h
    obtain ⟨hlen, hor⟩ := h row (List.mem_cons_self row rest)
    have hrest : ∀ r ∈ rest, quietRow old pattern fIndex r :=
      fun r hr => h r (List.mem_cons_of_mem row hr)
    by_cases hc : tok row 0 ∈ old
    · rw [scanRows_cons_old old pattern fIndex row rest w hlen hc,
        ih (some (tok row 0)) hrest]
      have hcb : old.contains (tok row 0) = true := by simpa using hc
      simp [lastWid, List.countP_cons, hcb, hc]
    · have hm : pyIn pattern (tok row fIndex) = false := by
        rcases hor with h' | h'
        · exact absurd h' hc
        · exact h'
      rw [scanRows_cons_sleep old pattern fIndex row rest w hlen hc hm,
        ih (some (tok row 0)) hrest]
      have hcb : old.contains (tok row 0) = false := by
        cases hcc : old.contains (tok row 0)
        · rfl
        · exact absurd (by simpa using hcc) hc
      simp [lastWid, List.countP_cons, hcb, hc]

lemma scanRows_found (old : List String) (pattern : String) (fIndex : Nat)
    (wrow : String) (rest : List String)
    (hwf : fIndex < (pySplit wrow).length)
    (hnew : tok wrow 0 ∉ old)
    (hm : pyIn pattern (tok wrow fIndex) = true) :
    ∀ (pre : List String) (w : Option String),
      (∀ r ∈ pre, quietRow old pattern fIndex r) →
      ∃ s, scanRows old pattern fIndex (pre ++ wrow :: rest) w
        = .ok ⟨true, some (tok wrow 0), s⟩ := by
  intro pre
  induction pre with
  | nil =>
    intro w _
    exact ⟨0, scanRows_cons_hit old pattern fIndex wrow rest w hwf hnew hm⟩
  | cons row pre ih =>
    intro w h
    obtain ⟨hlen, hor⟩ := h row (List.mem_cons_self row pre)
    obtain ⟨s, hs⟩ := ih (some (tok row 0)) (fun r hr => h r (List.mem_cons_of_mem row hr))
    by_cases hc : tok row 0 ∈ old
    · refine ⟨s, ?_⟩
      rw [List.cons_append, scanRows_cons_old old pattern fIndex row _ w hlen hc]
      exact hs
    · have hmf : pyIn pattern (tok row fIndex) = false := by
        rcases hor with h' | h'
        · exact absurd h' hc
        · exact h'
      refine ⟨s + 1, ?_⟩
      rw [List.cons_append, scanRows_cons_sleep old pattern fIndex row _ w hlen hc hmf, hs]

lemma scanRows_short (old : List String) (pattern : String) (fIndex : Nat)
    (bad : String) (rest : List String)
    (hbad : (pySplit bad).length ≤ fIndex) :
    ∀ (pre : List String) (w : Option String),
      (∀ r ∈ pre, quietRow old pattern fIndex r) →
      scanRows old pattern fIndex (pre ++ bad :: rest) w = .error .indexError := by
  intro pre
  induction pre with
  | nil =>
    intro w _
    exact scanRows_cons_short old pattern fIndex bad rest w hbad
  | cons row pre ih =>
    intro w h
    obtain ⟨hlen, hor⟩ := h row (List.mem_cons_self row pre)
    have htail := ih (some (tok row 0)) (fun r hr => h r (List.mem_cons_of_mem row hr))
    by_cases hc : tok row 0 ∈ old
    · rw [List.cons_append, scanRows_cons_old old pattern fIndex row _ w hlen hc]
      exact htail
    · have hmf : pyIn pattern (tok row fIndex) = false := by
        rcases hor with h' | h'
        · exact absurd h' hc
        · exact h'
      rw [List.cons_append, scanRows_cons_sleep old pattern fIndex row _ w hlen hc hmf, htail]

lemma runLoop_stop (env : Nat → List String) (old : List String) (pattern : String)
    (fIndex : Nat) (fuel : Nat) (st : LoopState)
    (h : st.found = true ∨ st.err.isSome = true) :
    runLoop env old pattern fIndex fuel st = st := by
  cases fuel with
  | zero => rfl
  | succ f =>
    rcases h with h | h <;> simp [runLoop, h]

lemma runLoop_step (env : Nat → List String) (old : List String) (pattern : String)
    (fIndex : Nat) (f q c : Nat) (w : Option String) (sl : Nat)
    (hquiet : ∀ r ∈ env q, quietRow old pattern fIndex r) :
    runLoop env old pattern fIndex (f + 1) ⟨q, c, false, w, sl, none⟩
      = runLoop env old pattern fIndex f
          ⟨q + 1, c + 1, false, lastWid w (env q),
            sl + (env q).countP (fun r => !(old.contains (tok r 0))), none⟩ := by
  rw [runLoop]
  simp [scanRows_quiet old pattern fIndex (env q) w hquiet]

lemma runLoop_quiet_skip (env : Nat → List String) (old : List String) (pattern : String)
    (fIndex : Nat) :
    ∀ (k fuel q c : Nat) (w : Option String) (sl : Nat), k ≤ fuel →
      (∀ t, t < k → ∀ r ∈ env (q + t), quietRow old pattern fIndex r) →
      ∃ w' sl', runLoop env old pattern fIndex fuel ⟨q, c, false, w, sl, none⟩
        = runLoop env old pattern fIndex (fuel - k) ⟨q + k, c + k, false, w', sl', none⟩ := by
  intro k
  induction k with
  | zero => intro fuel q c w sl _ _; exact ⟨w, sl, by simp⟩
  | succ n ih =>
    intro fuel q c w sl hk hq
    cases fuel with
    | zero => omega
    | succ f =>
      have hquiet0 : ∀ r ∈ env q, quietRow old pattern fIndex r := by
        have := hq 0 (by omega)
        simpa using this
      have hstep := runLoop_step env old pattern fIndex f q c w sl hquiet0
      have hshift : ∀ t, t < n → ∀ r ∈ env (q + 1 + t), quietRow old pattern fIndex r := by
        intro t ht r hr
        have h2 : q + 1 + t = q + (t + 1) := by omega
        exact hq (t + 1) (by omega) r (by rwa [h2] at hr)
      obtain ⟨w', sl', hrest⟩ := ih f (q + 1) (c + 1) (lastWid w (env q))
        (sl + (env q).countP (fun r => !(old.contains (tok r 0)))) (by omega) hshift
      refine ⟨w', sl', ?_⟩
      have e1 : f + 1 - (n + 1) = f - n := by omega
      have e2 : q + (n + 1) = q + 1 + n := by omega
      have e3 : c + (n + 1) = c + 1 + n := by omega
      rw [hstep, e1, e2, e3, hrest]

lemma runLoop_found_pass (env : Nat → List String) (old : List String) (pattern : String)
    (fIndex : Nat) (fuel q c : Nat) (w : Option String) (sl : Nat) (h : String) (s : Nat)
    (hscan : scanRows old pattern fIndex (env q) w = .ok ⟨true, some h, s⟩)
    (hfuel : 1 ≤ fuel) :
    runLoop env old pattern fIndex fuel ⟨q, c, false, w, sl, none⟩
      = ⟨q + 1, c + 1, true, some h, sl + s, none⟩ := by
  cases fuel with
  | zero => omega
  | succ f =>
    rw [runLoop]
    simp only [hscan]
    simp only [Bool.false_eq_true, Option.isSome_none, Bool.or_self, if_false]
    exact runLoop_stop env old pattern fIndex f _ (Or.inl rfl)

lemma runLoop_quiet_exhaust (env : Nat → List String) (old : List String) (pattern : String)
    (fIndex : Nat) (rows : List String)
    (hconst : ∀ t, env t = rows) (hne : rows ≠ [])
    (hquiet : ∀ r ∈ rows, quietRow old pattern fIndex r) :
    ∀ (fuel q c : Nat) (w : Option String) (sl : Nat), 1 ≤ fuel →
      ∃ sl', runLoop env old pattern fIndex fuel ⟨q, c, false, w, sl, none⟩
        = ⟨q + fuel, c + fuel, false, lastWid none rows, sl', none⟩ := by
  intro fuel
  induction fuel with
  | zero => intro q c w sl h; omega
  | succ f ih =>
    intro q c w sl _
    have hquiet0 : ∀ r ∈ env q, quietRow old pattern fIndex r := by
      rw [hconst q]; exact hquiet
    have hstep := runLoop_step env old pattern fIndex f q c w sl hquiet0
    rw [hconst q] at hstep
    by_cases hf : f = 0
    · subst hf
      refine ⟨sl + rows.countP (fun r => !(old.contains (tok r 0))), ?_⟩
      rw [hstep]
      show (⟨q + 1, c + 1, false, lastWid w rows, _, none⟩ : LoopState) = _
      rw [lastWid_irrel hne w none]
    · obtain ⟨sl', hrest⟩ := ih (q + 1) (c + 1) (lastWid w rows)
        (sl + rows.countP (fun r => !(old.contains (tok r 0)))) (by omega)
      refine ⟨sl', ?_⟩
      rw [hstep, hrest]
      have e1 : q + 1 + f = q + (f + 1) := by omega
      have e2 : c + 1 + f = c + (f + 1) := by omega
      rw [e1, e2]

lemma runLoop_c_le (env : Nat → List String) (old : List String) (pattern : String)
    (fIndex : Nat) :
    ∀ (fuel : Nat) (st : LoopState),
      (runLoop env old pattern fIndex fuel st).c ≤ st.c + fuel := by
  intro fuel
  induction fuel with
  | zero => intro st; simp [runLoop]
  | succ f ih =>
    intro st
    rw [runLoop]
    by_cases h : (st.found || st.err.isSome) = true
    · simp only [h, if_true]; omega
    · simp only [h, if_false]
      cases hs : scanRows old pattern fIndex (env st.q) st.wid with
      | error e =>
        show st.c + 1 ≤ st.c + (f + 1)
        omega
      | ok r =>
        calc (runLoop env old pattern fIndex f
                ⟨st.q + 1, st.c + 1, r.found, r.wid, st.sleeps + r.sleeps, none⟩).c
            ≤ (st.c + 1) + f := ih _
          _ ≤ st.c + (f + 1) := by omega

lemma gnwReturn_passes (st : LoopState) : (gnwReturn st).passes = st.c := by
  cases herr : st.err with
  | some e => simp [gnwReturn, herr]
  | none =>
    cases hw : st.wid with
    | some w => simp [gnwReturn, herr, hw]
    | none => simp [gnwReturn, herr, hw]

lemma gnwLoop_finds (env : Nat → List String) (old : List String) (pattern : String)
    (fIndex : Nat) (q0 tstar : Nat) (pre : List String) (wrow : String) (rest : List String)
    (ht : tstar < 1000)
    (hq : ∀ t, t < tstar → ∀ r ∈ env (q0 + t), quietRow old pattern fIndex r)
    (hrows : env (q0 + tstar) = pre ++ wrow :: rest)
    (hpre : ∀ r ∈ pre, quietRow old pattern fIndex r)
    (hwf : fIndex < (pySplit wrow).length)
    (hnew : tok wrow 0 ∉ old)
    (hm : pyIn pattern (tok wrow fIndex) = true) :
    ∃ sl, gnwLoop env old pattern fIndex q0
      = ⟨q0 + tstar + 1, tstar + 1, true, some (tok wrow 0), sl, none⟩ := by
  obtain ⟨w', sl', hskip⟩ := runLoop_quiet_skip env old pattern fIndex tstar 1000 q0 0
    none 0 (by omega) hq
  obtain ⟨s, hscan⟩ := scanRows_found old pattern fIndex wrow rest hwf hnew hm pre w' hpre
  rw [← hrows] at hscan
  have hpass := runLoop_found_pass env old pattern fIndex (1000 - tstar) (q0 + tstar)
    (0 + tstar) w' sl' (tok wrow 0) s hscan (by omega)
  refine ⟨sl' + s, ?_⟩
  rw [gnwLoop, hskip, hpass]
  have e : 0 + tstar + 1 = tstar + 1 := by omega
  rw [e]

lemma lm_success_shape (env : Nat → List String) (pid : Int) (arr : List String)
    (strat : Strategy) (ws : Int) (nm : Option String) (q0 : Nat)
    (hs : isOkLM (launch_and_move env pid arr strat ws nm q0).ret = true) :
    ∃ wid k,
      (launch_and_get_wid env pid arr strat q0).ret = .ok wid ∧
      (launch_and_move env pid arr strat ws nm q0).ret = .ok none ∧
      (launch_and_move env pid arr strat ws nm q0).events
        = .baseline :: .spawn arr ::
            (List.replicate k .poll
              ++ (match nm with
                  | some t => [OrchEvent.renameCmd (rename_window wid t)]
                  | none => [])
              ++ [OrchEvent.moveCmd (move_win_to_ws wid ws)]) := by
  cases hb : get_wids (env q0) with
  | error e =>
    exfalso
    simp [launch_and_move, launch_and_get_wid, hb, isOkLM] at hs
  | ok old =>
    cases ho : (runStrategy env old pid strat (q0 + 1)).ret with
    | error e =>
      exfalso
      simp [launch_and_move, launch_and_get_wid, hb, ho, isOkLM] at hs
    | ok wid =>
      refine ⟨wid, (runStrategy env old pid strat (q0 + 1)).q - (q0 + 1), ?_, ?_, ?_⟩
      · simp [launch_and_get_wid, hb, ho]
      · simp [launch_and_move, launch_and_get_wid, hb, ho]
      · simp [launch_and_move, launch_and_get_wid, hb, ho, List.cons_append,
          List.append_assoc]

/-- C1, counterexample: relocate with user-facing workspace number 1
dispatches a move command whose target index token is 1, not 0, and with
number 4 the token is 4, not 3 - no subtraction happens in the Mutator. -/
theorem move_win_to_ws_one_based_cex :
    (move_win_to_ws "0x1" 1)[5]? = some "1" ∧
    (move_win_to_ws "0x1" 4)[5]? = some "4" ∧
    ("1" : String) ≠ "0" ∧ ("4" : String) ≠ "3" :=
  ⟨rfl, rfl, by decide, by decide⟩

/-- C1 (amended): for every handle and every workspace number n,
move_win_to_ws dispatches a move command whose -t target token is
str(n) unchanged; the 0-based translation is left to the caller. -/
theorem move_win_to_ws_dispatches_given_index (win_id : String) (workspace : Int) :
    (move_win_to_ws win_id workspace)[4]? = some "-t" ∧
    (move_win_to_ws win_id workspace)[5]? = some (toString workspace) :=
  ⟨rfl, rfl⟩

/-- C2 (code bug in the source): when the iteration bound is exhausted
without any new matching window, get_new_wid does not fail; it returns
the stale local wid, here the handle 0xb that was already present in the
baseline snapshot. The claim (and section 9 of the spec) require a
definite CorrelationExhausted failure instead. -/
theorem get_new_wid_exhaust_returns_stale :
    (get_new_wid (fun _ => ["0xb 0 7 host Title"]) ["0xb"] "zzz" PID_INDEX false 0).ret
      = .ok "0xb" ∧ "0xb" ∈ ["0xb"] := by
  refine ⟨?_, by decide⟩
  obtain ⟨sl', hrun⟩ := runLoop_quiet_exhaust (fun _ => ["0xb 0 7 host Title"]) ["0xb"]
    "zzz" PID_INDEX ["0xb 0 7 host Title"] (fun t => rfl) (by decide) (by decide)
    1000 0 0 none 0 (by omega)
  have hlw : lastWid none ["0xb 0 7 host Title"] = some "0xb" := by decide
  rw [hlw] at hrun
  simp [get_new_wid, gnwLoop, hrun, gnwReturn]

/-- C9, counterexample: a polling pass that finds no candidate performs
one sleep per scanned non-baseline record, not exactly one sleep; here a
pass over two new non-matching rows sleeps twice. -/
theorem sleep_per_record_cex :
    scanRows [] "zzz" 2 ["0x1 a b c d", "0x2 a b c d"] none
      = .ok ⟨false, some "0x2", 2⟩ ∧ (2 : Nat) ≠ 1 :=
  ⟨rfl, by decide⟩

/-- C9 (amended): in a pass of the correlation loop in which every row is
either a baseline row or a non-matching row (so no candidate is found),
the number of 50 ms sleeps equals the number of rows whose handle is not
in the baseline set - once per scanned new record, and zero when every
record is a baseline one, rather than exactly once per pass. -/
theorem scan_pass_sleep_count (old : List String) (pattern : String) (fIndex : Nat)
    (rows : List String) (w : Option String)
    (h : ∀ r ∈ rows, quietRow old pattern fIndex r) :
    scanRows old pattern fIndex rows w
      = .ok ⟨false, lastWid w rows,
          rows.countP (fun r => !(old.contains (tok r 0)))⟩ :=
  scanRows_quiet old pattern fIndex rows w h

/-- C9, witness for the amended claim at a concrete pass: one baseline
row and two new non-matching rows give exactly two sleeps. -/
theorem scan_pass_sleep_count_witness :
    scanRows ["0xb"] "zzz" 2 ["0xb a b c d", "0x1 a b c d", "0x2 a b c d"] none
      = .ok ⟨false, lastWid none ["0xb a b c d", "0x1 a b c d", "0x2 a b c d"],
          List.countP (fun r => !(List.contains ["0xb"] (tok r 0)))
            ["0xb a b c d", "0x1 a b c d", "0x2 a b c d"]⟩ :=
  scan_pass_sleep_count ["0xb"] "zzz" 2
    ["0xb a b c d", "0x1 a b c d", "0x2 a b c d"] none (by decide)

/-- C10 (confirmed): the selected column of every scanned row is read
before the baseline membership test, so a row with fIndex or fewer
tokens in the polled snapshot makes the whole search raise IndexError,
regardless of whether that row describes a baseline window. -/
theorem get_new_wid_short_row_fails (env : Nat → List String) (old : List String)
    (pattern : String) (fIndex : Nat) (rep : Bool) (q0 : Nat)
    (pre : List String) (bad : String) (rest : List String)
    (hrows : env q0 = pre ++ bad :: rest)
    (hpre : ∀ r ∈ pre, quietRow old pattern fIndex r)
    (hbad : (pySplit bad).length ≤ fIndex) :
    (get_new_wid env old pattern fIndex rep q0).ret = .error .indexError := by
  have hscan : scanRows old pattern fIndex (env q0) none = .error .indexError := by
    rw [hrows]
    exact scanRows_short old pattern fIndex bad rest hbad pre none hpre
  have hloop : gnwLoop env old pattern fIndex q0
      = ⟨q0 + 1, 0 + 1, false, none, 0, some .indexError⟩ := by
    rw [gnwLoop]
    have h1000 : (1000 : Nat) = 999 + 1 := by norm_num
    rw [h1000, runLoop]
    simp [hscan]
  cases rep with
  | false => simp [get_new_wid, hloop, gnwReturn]
  | true => simp [get_new_wid, hloop]

/-- C10, witness: a baseline row with only two tokens (at or below
PID_INDEX) makes the search fail with IndexError even though the row
would otherwise be skipped as a baseline window. -/
theorem get_new_wid_short_row_fails_witness :
    (get_new_wid (fun _ => ["0xb 0"]) ["0xb"] "zzz" PID_INDEX false 0).ret
      = .error .indexError :=
  get_new_wid_short_row_fails (fun _ => ["0xb 0"]) ["0xb"] "zzz" PID_INDEX false 0
    [] "0xb 0" [] rfl (by simp) (by decide)

/-- C5 (confirmed): for a baseline handle set S and a window wrow that is
not in S and whose title first token (column TITLE_INDEX) contains the
pattern, title-based correlation returns the handle of wrow, provided the
passes before it and the rows scanned before it contain no other
candidate (no other post-S window matching the pattern) and the rows are
well formed. -/
theorem get_wid_by_title_returns_new_window (env : Nat → List String) (S : List String)
    (p : String) (q0 tstar : Nat) (pre : List String) (wrow : String) (rest : List String)
    (ht : tstar < 1000)
    (hq : ∀ t, t < tstar → ∀ r ∈ env (q0 + t), quietRow S p TITLE_INDEX r)
    (hrows : env (q0 + tstar) = pre ++ wrow :: rest)
    (hpre : ∀ r ∈ pre, quietRow S p TITLE_INDEX r)
    (hwf : TITLE_INDEX < (pySplit wrow).length)
    (hnew : tok wrow 0 ∉ S)
    (hm : pyIn p (tok wrow TITLE_INDEX) = true) :
    (get_wid_by_title env S p q0).ret = .ok (tok wrow 0) := by
  obtain ⟨sl, hst⟩ := gnwLoop_finds env S p TITLE_INDEX q0 tstar pre wrow rest
    ht hq hrows hpre hwf hnew hm
  simp [get_wid_by_title, get_new_wid, hst, gnwReturn]

/-- C5, witness: an empty baseline and one new window whose title first
token Foobar contains the pattern Foo. -/
theorem get_wid_by_title_returns_new_window_witness :
    (get_wid_by_title (fun _ => ["0x1 d 55 host Foobar"]) [] "Foo" 0).ret = .ok "0x1" :=
  get_wid_by_title_returns_new_window (fun _ => ["0x1 d 55 host Foobar"]) [] "Foo" 0 0
    [] "0x1 d 55 host Foobar" [] (by omega)
    (fun t ht => absurd ht (Nat.not_lt_zero t)) rfl (by simp)
    (by decide) (by decide) (by decide)

/-- C4, counterexample: with baseline 0xb and two new windows 0x1 and 0x2
both matching the pid pattern 9 in scan order 0x1 then 0x2 in the same
snapshots, correlation with skip one (double) does not return 0x2: the
re-baseline taken after finding 0x1 already contains 0x2, so the second
search exhausts and returns the stale handle 0xb. -/
theorem skip_one_same_snapshot_cex :
    (get_wid_by_pid (fun _ => ["0x1 u 9 h T", "0x2 u 9 h T", "0xb u 7 h T"])
        ["0xb"] 9 true 0).ret = .ok "0xb" ∧ ("0xb" : String) ≠ "0x2" := by
  refine ⟨?_, by decide⟩
  obtain ⟨sl1, hst1⟩ := gnwLoop_finds
    (fun _ => ["0x1 u 9 h T", "0x2 u 9 h T", "0xb u 7 h T"]) ["0xb"]
    (toString (9 : Int)) PID_INDEX 0 0 [] "0x1 u 9 h T" ["0x2 u 9 h T", "0xb u 7 h T"]
    (by omega) (fun t ht => absurd ht (Nat.not_lt_zero t)) rfl (by simp)
    (by decide) (by decide) (by decide)
  obtain ⟨sl2, hexh⟩ := runLoop_quiet_exhaust
    (fun _ => ["0x1 u 9 h T", "0x2 u 9 h T", "0xb u 7 h T"]) ["0x1", "0x2", "0xb"]
    (toString (9 : Int)) PID_INDEX ["0x1 u 9 h T", "0x2 u 9 h T", "0xb u 7 h T"]
    (fun t => rfl) (by decide) (by decide) 1000 2 0 none 0 (by omega)
  have hlw : lastWid none ["0x1 u 9 h T", "0x2 u 9 h T", "0xb u 7 h T"]
      = some "0xb" := rfl
  rw [hlw] at hexh
  have hexh2 : gnwLoop (fun _ => ["0x1 u 9 h T", "0x2 u 9 h T", "0xb u 7 h T"])
      ["0x1", "0x2", "0xb"] (toString (9 : Int)) PID_INDEX 2
      = ⟨2 + 1000, 0 + 1000, false, some "0xb", sl2, none⟩ := by
    rw [gnwLoop]; exact hexh
  have hbase : get_wids ["0x1 u 9 h T", "0x2 u 9 h T", "0xb u 7 h T"]
      = .ok ["0x1", "0x2", "0xb"] := rfl
  simp [get_wid_by_pid, get_new_wid, hst1, hbase, hexh2, gnwReturn]

/-- C4 (amended): if the first new window w1row matching the pid pattern
is found first, and the second matching window w2row appears only after
the fresh re-baseline snapshot (its handle is not among the handles
captured there), then correlation with skip zero returns the handle of
w1row and correlation with skip one (double) returns the handle of
w2row. -/
theorem get_wid_by_pid_double_order (env : Nat → List String) (S : List String)
    (pid : Int) (q0 t1 t2 : Nat)
    (pre1 : List String) (w1row : String) (rest1 : List String)
    (newOld : List String)
    (pre2 : List String) (w2row : String) (rest2 : List String)
    (ht1 : t1 < 1000)
    (hq1 : ∀ t, t < t1 → ∀ r ∈ env (q0 + t), quietRow S (toString pid) PID_INDEX r)
    (hrows1 : env (q0 + t1) = pre1 ++ w1row :: rest1)
    (hpre1 : ∀ r ∈ pre1, quietRow S (toString pid) PID_INDEX r)
    (hwf1 : PID_INDEX < (pySplit w1row).length)
    (hnew1 : tok w1row 0 ∉ S)
    (hm1 : pyIn (toString pid) (tok w1row PID_INDEX) = true)
    (hbase : get_wids (env (q0 + t1 + 1)) = .ok newOld)
    (ht2 : t2 < 1000)
    (hq2 : ∀ t, t < t2 → ∀ r ∈ env (q0 + t1 + 2 + t), quietRow newOld (toString pid) PID_INDEX r)
    (hrows2 : env (q0 + t1 + 2 + t2) = pre2 ++ w2row :: rest2)
    (hpre2 : ∀ r ∈ pre2, quietRow newOld (toString pid) PID_INDEX r)
    (hwf2 : PID_INDEX < (pySplit w2row).length)
    (hnew2 : tok w2row 0 ∉ newOld)
    (hm2 : pyIn (toString pid) (tok w2row PID_INDEX) = true) :
    (get_wid_by_pid env S pid false q0).ret = .ok (tok w1row 0) ∧
    (get_wid_by_pid env S pid true q0).ret = .ok (tok w2row 0) := by
  obtain ⟨sl1, hst1⟩ := gnwLoop_finds env S (toString pid) PID_INDEX q0 t1
    pre1 w1row rest1 ht1 hq1 hrows1 hpre1 hwf1 hnew1 hm1
  constructor
  · simp [get_wid_by_pid, get_new_wid, hst1, gnwReturn]
  · obtain ⟨sl2, hst2⟩ := gnwLoop_finds env newOld (toString pid) PID_INDEX
      (q0 + t1 + 2) t2 pre2 w2row rest2 ht2 hq2 hrows2 hpre2 hwf2 hnew2 hm2
    have e2 : q0 + t1 + 1 + 1 = q0 + t1 + 2 := by omega
    simp [get_wid_by_pid, get_new_wid, hst1, hbase, e2, hst2, gnwReturn]

/-- C4, witness for the amended claim: the second matching window appears
only in the snapshots taken after the re-baseline, so skip zero yields
0x1 and skip one yields 0x2. -/
theorem get_wid_by_pid_double_order_witness :
    (get_wid_by_pid (fun k => if k ≤ 1 then ["0x1 u 9 h T"]
        else ["0x1 u 9 h T", "0x2 u 9 h T"]) [] 9 false 0).ret = .ok "0x1" ∧
    (get_wid_by_pid (fun k => if k ≤ 1 then ["0x1 u 9 h T"]
        else ["0x1 u 9 h T", "0x2 u 9 h T"]) [] 9 true 0).ret = .ok "0x2" :=
  get_wid_by_pid_double_order
    (fun k => if k ≤ 1 then ["0x1 u 9 h T"] else ["0x1 u 9 h T", "0x2 u 9 h T"])
    [] 9 0 0 0 [] "0x1 u 9 h T" [] ["0x1"] ["0x1 u 9 h T"] "0x2 u 9 h T" []
    (by omega) (fun t ht => absurd ht (Nat.not_lt_zero t)) rfl (by simp)
    (by decide) (by decide) (by decide) rfl (by omega)
    (fun t ht => absurd ht (Nat.not_lt_zero t)) rfl (by decide)
    (by decide) (by decide) (by decide)

/-- C3, counterexample: a successful run of launch_and_move returns None
(the body has no return statement), not the correlated handle 0x9 that
launch_and_get_wid produced for it. -/
theorem launch_and_move_drops_handle_cex :
    (launch_and_move (fun k => if k = 0 then [] else ["0x9 0 123 host T"]) 123 ["app"]
        (.byPid false) 2 none 0).ret = .ok none ∧
    (launch_and_get_wid (fun k => if k = 0 then [] else ["0x9 0 123 host T"]) 123 ["app"]
        (.byPid false) 0).ret = .ok "0x9" :=
  ⟨rfl, rfl⟩

/-- C3 (amended): on success launch_and_move returns None; the correlated
handle is obtained from launch_and_get_wid and consumed internally by the
dispatched move command, but it is not returned to the caller. -/
theorem launch_and_move_returns_none (env : Nat → List String) (pid : Int)
    (arr : List String) (strat : Strategy) (ws : Int) (nm : Option String) (q0 : Nat)
    (hs : isOkLM (launch_and_move env pid arr strat ws nm q0).ret = true) :
    (launch_and_move env pid arr strat ws nm q0).ret = .ok none ∧
    ∃ wid, (launch_and_get_wid env pid arr strat q0).ret = .ok wid ∧
      OrchEvent.moveCmd (move_win_to_ws wid ws)
        ∈ (launch_and_move env pid arr strat ws nm q0).events := by
  obtain ⟨wid, k, hg, hret, hev⟩ := lm_success_shape env pid arr strat ws nm q0 hs
  refine ⟨hret, wid, hg, ?_⟩
  rw [hev]
  simp

/-- C3, witness for the amended claim at a concrete successful run. -/
theorem launch_and_move_returns_none_witness :
    (launch_and_move (fun k => if k = 0 then [] else ["0x9 0 123 host T"]) 123 ["app"]
        (.byPid false) 2 (some "nice") 0).ret = .ok none ∧
    ∃ wid, (launch_and_get_wid (fun k => if k = 0 then [] else ["0x9 0 123 host T"])
        123 ["app"] (.byPid false) 0).ret = .ok wid ∧
      OrchEvent.moveCmd (move_win_to_ws wid 2)
        ∈ (launch_and_move (fun k => if k = 0 then [] else ["0x9 0 123 host T"]) 123
            ["app"] (.byPid false) 2 (some "nice") 0).events :=
  launch_and_move_returns_none (fun k => if k = 0 then [] else ["0x9 0 123 host T"])
    123 ["app"] (.byPid false) 2 (some "nice") 0 rfl

/-- C6 (confirmed): when the first whitespace-separated word of the
requested terminal title contains the marker Terminal, the terminal
profile stops with ValueError before any launch activity (empty trace);
otherwise it proceeds to launch_and_move with the built argument vector
and title-based correlation on the marker. -/
theorem terminal_title_guard (shx : String → List String) (env : Nat → List String)
    (pid : Int) (ws : Int) (dir cmd : Option String) (opts : List String)
    (name : String) (prof : String) (q0 : Nat) (w0 : String)
    (h0 : (pySplit name)[0]? = some w0) :
    (pyIn "Terminal" w0 = true →
      terminal shx env pid ws dir cmd opts name prof q0 = ⟨.error .valueError, [], q0⟩) ∧
    (pyIn "Terminal" w0 = false →
      terminal shx env pid ws dir cmd opts name prof q0
        = launch_and_move env pid (terminal_prog_array shx dir cmd opts prof)
            (.byTitle "Terminal") ws (some name) q0) := by
  constructor
  · intro hT
    simp [terminal, h0, hT]
  · intro hF
    simp [terminal, h0, hF]

/-- C6, witness: the title Terminal-session is rejected with ValueError
and nothing is launched, while the title work-shell is accepted and the
profile proceeds to launch_and_move. -/
theorem terminal_title_guard_witness :
    terminal (fun c => [c]) (fun _ => []) 1 2 none none [] "Terminal-session" "default" 0
      = ⟨.error .valueError, [], 0⟩ ∧
    terminal (fun c => [c]) (fun _ => []) 1 2 none none [] "work-shell" "default" 0
      = launch_and_move (fun _ => []) 1
          (terminal_prog_array (fun c => [c]) none none [] "default")
          (.byTitle "Terminal") 2 (some "work-shell") 0 :=
  ⟨(terminal_title_guard (fun c => [c]) (fun _ => []) 1 2 none none []
      "Terminal-session" "default" 0 "Terminal-session" rfl).1 (by decide),
   (terminal_title_guard (fun c => [c]) (fun _ => []) 1 2 none none []
      "work-shell" "default" 0 "work-shell" rfl).2 (by decide)⟩

/-- C7 (confirmed): in every successful run of launch_and_move, the
baseline capture is the first event and the spawn the second, exactly
one move command is dispatched, a rename command is dispatched exactly
when a new title is set, and the rename precedes the move. -/
theorem launch_and_move_orchestration (env : Nat → List String) (pid : Int)
    (arr : List String) (strat : Strategy) (ws : Int) (nm : Option String) (q0 : Nat)
    (hs : isOkLM (launch_and_move env pid arr strat ws nm q0).ret = true) :
    ((launch_and_move env pid arr strat ws nm q0).events)[0]? = some .baseline ∧
    ((launch_and_move env pid arr strat ws nm q0).events)[1]? = some (.spawn arr) ∧
    (launch_and_move env pid arr strat ws nm q0).events.countP isMoveEv = 1 ∧
    (launch_and_move env pid arr strat ws nm q0).events.countP isRenameEv
      = (match nm with | some _ => 1 | none => 0) ∧
    (∀ t, nm = some t → ∃ l1 l2 cR cM,
      (launch_and_move env pid arr strat ws nm q0).events
        = l1 ++ OrchEvent.renameCmd cR :: (l2 ++ [OrchEvent.moveCmd cM])) := by
  obtain ⟨wid, k, hg, hret, hev⟩ := lm_success_shape env pid arr strat ws nm q0 hs
  rw [hev]
  refine ⟨by simp, by simp, ?_, ?_, ?_⟩
  · cases nm <;>
      simp [List.countP_cons, List.countP_append, countP_repl, isMoveEv, isRenameEv]
  · cases nm <;>
      simp [List.countP_cons, List.countP_append, countP_repl, isMoveEv, isRenameEv]
  · intro t hnm
    subst hnm
    exact ⟨.baseline :: .spawn arr :: List.replicate k .poll, [],
      rename_window wid t, move_win_to_ws wid ws, by simp⟩

/-- C7, witness at a concrete successful run with a new title set. -/
theorem launch_and_move_orchestration_witness :
    ((launch_and_move (fun k => if k = 0 then [] else ["0x9 0 123 host T"]) 123 ["app"]
        (.byPid false) 3 (some "nice") 0).events)[0]? = some .baseline ∧
    (launch_and_move (fun k => if k = 0 then [] else ["0x9 0 123 host T"]) 123 ["app"]
        (.byPid false) 3 (some "nice") 0).events.countP isMoveEv = 1 := by
  have h := launch_and_move_orchestration
    (fun k => if k = 0 then [] else ["0x9 0 123 host T"]) 123 ["app"]
    (.byPid false) 3 (some "nice") 0 rfl
  exact ⟨h.1, h.2.2.1⟩

/-- C8 (confirmed): the polling loop of get_new_wid executes at most 1000
passes per search; with the repeat flag the whole search runs exactly one
more time with the flag disabled, so every call performs at most 2000
passes in total (the embedding is structurally terminating). -/
theorem get_new_wid_pass_bound (env : Nat → List String) (old : List String)
    (pattern : String) (fIndex : Nat) (rep : Bool) (q0 : Nat) :
    (get_new_wid env old pattern fIndex rep q0).passes ≤ 2000 ∧
    (get_new_wid env old pattern fIndex false q0).passes ≤ 1000 := by
  have hc : ∀ (o : List String) (q : Nat), (gnwLoop env o pattern fIndex q).c ≤ 1000 := by
    intro o q
    have h := runLoop_c_le env o pattern fIndex 1000 ⟨q, 0, false, none, 0, none⟩
    simpa [gnwLoop] using h
  have hfalse : ∀ (o : List String) (q : Nat),
      (get_new_wid env o pattern fIndex false q).passes ≤ 1000 := by
    intro o q
    have he : (get_new_wid env o pattern fIndex false q).passes
        = (gnwLoop env o pattern fIndex q).c := by
      simp [get_new_wid, gnwReturn_passes]
    rw [he]
    exact hc o q
  refine ⟨?_, hfalse old q0⟩
  cases rep with
  | false => exact le_trans (hfalse old q0) (by omega)
  | true =>
    cases herr : (gnwLoop env old pattern fIndex q0).err with
    | some e =>
      have he : (get_new_wid env old pattern fIndex true q0).passes
          = (gnwLoop env old pattern fIndex q0).c := by
        simp [get_new_wid, herr]
      rw [he]
      have := hc old q0
      omega
    | none =>
      cases hgw : get_wids (env (gnwLoop env old pattern fIndex q0).q) with
      | error e =>
        have he : (get_new_wid env old pattern fIndex true q0).passes
            = (gnwLoop env old pattern fIndex q0).c := by
          simp [get_new_wid, herr, hgw]
        rw [he]
        have := hc old q0
        omega
      | ok newOld =>
        have he : (get_new_wid env old pattern fIndex true q0).passes
            = (gnwLoop env old pattern fIndex q0).c
              + (gnwLoop env newOld pattern fIndex
                  ((gnwLoop env old pattern fIndex q0).q + 1)).c := by
          simp [get_new_wid, herr, hgw, gnwReturn_passes]
        rw [he]
        have h1 := hc old q0
        have h2 := hc newOld ((gnwLoop env old pattern fIndex q0).q + 1)
        omega

end Launcher
